import Mathlib

/-!
Verification development for a line-oriented firewall-configuration parser
(`script.py`): four recognizers (interface blocks, route lines, object-NAT
pairs, ACL lines) are embedded shallowly.  Python strings become `String`,
`str.strip`/`str.split` are modelled character-exactly, fallible list
indexing (`IndexError`) is modelled with `Except String`, and the ACL
parser's `try/except` body is modelled as a chain of steps that thread the
partially-mutated record together with a pending exception, matching
CPython's mutate-then-raise semantics.
-/

set_option maxRecDepth 10000

/-- Python `str` whitespace characters (the ones `strip`/`split` treat as
whitespace). -/
def isPySpace (c : Char) : Bool :=
  c = ' ' || c = '\t' || c = '\n' || c = '\r' || c = '\x0b' || c = '\x0c'

/-- Strip leading and trailing Python whitespace from a character list. -/
def stripList (cs : List Char) : List Char :=
  ((cs.dropWhile isPySpace).reverse.dropWhile isPySpace).reverse

/-- Python `str.strip()`. -/
def pyStrip (s : String) : String := String.mk (stripList s.toList)

/-- Worker for Python `str.split()` (no separator): split on runs of
whitespace, dropping empty pieces.  `acc` holds the current token reversed. -/
def splitWsGo : List Char → List Char → List (List Char)
  | [], acc => if acc.isEmpty then [] else [acc.reverse]
  | c :: cs, acc =>
    if isPySpace c then
      if acc.isEmpty then splitWsGo cs [] else acc.reverse :: splitWsGo cs []
    else
      splitWsGo cs (c :: acc)

/-- Python `str.split()` with no arguments. -/
def pySplitWs (s : String) : List String :=
  (splitWsGo s.toList []).map String.mk

/-- Worker for Python `str.split(sep)` with a non-empty separator:
non-overlapping occurrences, scanned left to right.  The fuel argument
makes the recursion structural; every recursive call consumes at least one
character, so fuel equal to the input length is always sufficient and the
fuel-exhaustion branch is unreachable from `pySplitSub`. -/
def splitSubFuel (sep : List Char) : Nat → List Char → List Char → List (List Char)
  | _, [], acc => [acc.reverse]
  | 0, cs, acc => [acc.reverse ++ cs]
  | n + 1, c :: cs, acc =>
    if !sep.isEmpty && sep.isPrefixOf (c :: cs) then
      acc.reverse :: splitSubFuel sep n (cs.drop (sep.length - 1)) []
    else
      splitSubFuel sep n cs (c :: acc)

/-- Python `str.split(sep)` for a non-empty separator string. -/
def pySplitSub (s sep : String) : List String :=
  (splitSubFuel sep.toList s.toList.length s.toList []).map String.mk

/-- Python `needle in haystack` for strings (substring occurrence). -/
def subOccurs (needle : List Char) : List Char → Bool
  | [] => needle.isEmpty
  | c :: cs => needle.isPrefixOf (c :: cs) || subOccurs needle cs

/-- Python `s.startswith(p)`. -/
def pyStartsWith (s p : String) : Bool :=
  p.toList.isPrefixOf s.toList

/-- The CPython message carried by an `IndexError` raised by list indexing. -/
def idxMsg : String := "list index out of range"

/-- Python `xs[i]` for a non-negative index: value or `IndexError`. -/
def pyGet (xs : List String) (i : Nat) : Except String String :=
  match xs.get? i with
  | some v => .ok v
  | none => .error idxMsg

/-- Python `xs[-1]`: last element or `IndexError`. -/
def pyLast (xs : List String) : Except String String :=
  match xs.getLast? with
  | some v => .ok v
  | none => .error idxMsg

/-- Number of whitespace-delimited tokens of the stripped line. -/
def tokCount (l : String) : Nat := (pySplitWs (pyStrip l)).length

/-! ## Interface block recognizer (`parse_interfaces`) -/

/-- The per-interface Python dict.  An `Option` field is `none` when the key
is absent from the dict and `some v` when the key is present with value `v`
(the distinction matters for the dict's truthiness test `if current:`).
Field names map to the Python keys "Interface", "Name", "Security Level",
"IP Address", "Subnet Mask", "Standby IP", "VLAN". -/
structure IntfDict where
  intf : Option String := none
  name : Option String := none
  seclevel : Option String := none
  ipaddr : Option String := none
  mask : Option String := none
  standby : Option String := none
  vlan : Option String := none
deriving DecidableEq, Repr

/-- Python truthiness of the dict: at least one key present. -/
def IntfDict.truthy (d : IntfDict) : Bool :=
  d.intf.isSome || d.name.isSome || d.seclevel.isSome || d.ipaddr.isSome ||
  d.mask.isSome || d.standby.isSome || d.vlan.isSome

/-- The dict built by an `interface` declaration line: all seven keys
present, the identifier from the second token, the rest empty strings. -/
def freshIntf (w : String) : IntfDict :=
  ⟨some w, some "", some "", some "", some "", some "", some ""⟩

/-- Main loop of `parse_interfaces`, threading the `current` dict and the
accumulated `interfaces` list. -/
def piGo : List String → IntfDict → List IntfDict → Except String (List IntfDict)
  | [], cur, acc => .ok (if cur.truthy then acc ++ [cur] else acc)
  | l :: ls, cur, acc =>
    let line := pyStrip l
    if pyStartsWith line "interface " then
      match pyGet (pySplitWs line) 1 with
      | .error e => .error e
      | .ok w => piGo ls (freshIntf w) (if cur.truthy then acc ++ [cur] else acc)
    else if pyStartsWith line "nameif" then
      match pyGet (pySplitWs line) 1 with
      | .error e => .error e
      | .ok w => piGo ls { cur with name := some w } acc
    else if pyStartsWith line "security-level" then
      match pyGet (pySplitWs line) 1 with
      | .error e => .error e
      | .ok w => piGo ls { cur with seclevel := some w } acc
    else if pyStartsWith line "ip address" then
      let parts := pySplitWs line
      match pyGet parts 2 with
      | .error e => .error e
      | .ok a =>
        match pyGet parts 3 with
        | .error e => .error e
        | .ok b =>
          let c1 : IntfDict := { cur with ipaddr := some a, mask := some b }
          if subOccurs "standby".toList line.toList then
            match pyLast parts with
            | .error e => .error e
            | .ok z => piGo ls { c1 with standby := some z } acc
          else
            piGo ls c1 acc
    else if pyStartsWith line "vlan" then
      match pyGet (pySplitWs line) 1 with
      | .error e => .error e
      | .ok w => piGo ls { cur with vlan := some w } acc
    else if line == "!" && cur.truthy then
      piGo ls {} (acc ++ [cur])
    else
      piGo ls cur acc

/-- `parse_interfaces` from `script.py`. -/
def parse_interfaces (lines : List String) : Except String (List IntfDict) :=
  piGo lines {} []

/-- A line that opens an interface block: the stripped line begins with
`interface ` and carries the identifier token. -/
def isDeclLine (l : String) : Bool :=
  pyStartsWith (pyStrip l) "interface " && decide (2 ≤ tokCount l)

/-- The bare block terminator line. -/
def isTermLine (l : String) : Bool := pyStrip l == "!"

/-- A well-formed field line of an interface block, with enough tokens for
the recognizer's accesses. -/
def isFieldLine (l : String) : Bool :=
  (pyStartsWith (pyStrip l) "nameif" && decide (2 ≤ tokCount l)) ||
  (pyStartsWith (pyStrip l) "security-level" && decide (2 ≤ tokCount l)) ||
  (pyStartsWith (pyStrip l) "ip address" && decide (4 ≤ tokCount l)) ||
  (pyStartsWith (pyStrip l) "vlan" && decide (2 ≤ tokCount l))

/-- The input consists of valid interface blocks, each terminated by the
delimiter (except possibly the last): declarations only outside a block,
field lines and terminators only inside one. -/
def validBlocks : List String → Bool → Bool
  | [], _ => true
  | l :: ls, inB =>
    if isDeclLine l then !inB && validBlocks ls true
    else if isTermLine l then inB && validBlocks ls false
    else isFieldLine l && inB && validBlocks ls inB

/-- Whether a block is still open (unterminated) after the input. -/
def endsOpen : List String → Bool → Bool
  | [], inB => inB
  | l :: ls, inB =>
    if isDeclLine l then endsOpen ls true
    else if isTermLine l then endsOpen ls false
    else endsOpen ls inB

/-! ## Route line recognizer (`parse_routes`) -/

structure RouteRecord where
  interface : String
  destination : String
  netmask : String
  gateway : String
  metric : String
deriving DecidableEq, Repr

/-- One `\S+` group: the maximal non-whitespace run, required non-empty. -/
def grabTok (cs : List Char) : Option (List Char × List Char) :=
  let t := cs.takeWhile fun c => !isPySpace c
  if t.isEmpty then none else some (t, cs.drop t.length)

/-- `re.match(r'^route (\S+) (\S+) (\S+) (\S+)(?: (\d+))?', line)` made
explicit: each `\S+` is a maximal non-whitespace run followed by the literal
single space of the pattern; the optional group contributes the metric only
when a space and at least one digit follow the gateway. -/
def routeMatch (line : String) : Option RouteRecord :=
  if pyStartsWith line "route " then
    match grabTok (line.toList.drop 6) with
    | none => none
    | some (t1, r1) =>
      match r1 with
      | ' ' :: r1' =>
        match grabTok r1' with
        | none => none
        | some (t2, r2) =>
          match r2 with
          | ' ' :: r2' =>
            match grabTok r2' with
            | none => none
            | some (t3, r3) =>
              match r3 with
              | ' ' :: r3' =>
                match grabTok r3' with
                | none => none
                | some (t4, r4) =>
                  let metric :=
                    match r4 with
                    | ' ' :: r5 =>
                      let d := r5.takeWhile Char.isDigit
                      if d.isEmpty then "" else String.mk d
                    | _ => ""
                  some ⟨String.mk t1, String.mk t2, String.mk t3,
                        String.mk t4, metric⟩
              | _ => none
          | _ => none
      | _ => none
  else none

/-- `parse_routes` from `script.py`. -/
def parse_routes (lines : List String) : List RouteRecord :=
  lines.filterMap fun l => routeMatch (pyStrip l)

/-! ## Object-NAT recognizer (`parse_object_nat`) -/

structure NatRecord where
  object_name : String
  source_interface : String
  destination_interface : String
  nat_type : String
  translated_object : String
  raw : String
deriving DecidableEq, Repr

/-- The greatest index `i` of a comma in `core` leaving non-empty pieces on
both sides (greedy choice of the first `\S+` group of the NAT regex). -/
def lastGoodComma (core : List Char) : Option Nat :=
  ((List.range core.length).filter fun i =>
    core.getD i ' ' == ',' && decide (1 ≤ i) && decide (i + 2 ≤ core.length)).getLast?

/-- `re.match(r'nat \((\S+),(\S+)\) static (\S+)', line)` made explicit.
Both interface groups live inside the first maximal non-whitespace run after
`"nat ("`; that run must end with `)`, split at its last viable comma, and
must be followed by the literal `" static "` and a non-empty target token. -/
def natStaticMatch (line : String) : Option (String × String × String) :=
  if pyStartsWith line "nat (" then
    let cs := line.toList.drop 5
    let u := cs.takeWhile fun c => !isPySpace c
    let rest := cs.drop u.length
    if u.getLast? == some ')' then
      let core := u.dropLast
      match lastGoodComma core with
      | some i =>
        if " static ".toList.isPrefixOf rest then
          let s3 := (rest.drop 8).takeWhile fun c => !isPySpace c
          if s3.isEmpty then none
          else some (String.mk (core.take i), String.mk (core.drop (i + 1)),
                     String.mk s3)
        else none
      | none => none
    else none
  else none

/-- Main loop of `parse_object_nat`: `pending` is `current_object` (Python
`None` is `none`; the guard `and current_object` also rejects `""`). -/
def pnGo : List String → Option String → List NatRecord → Except String (List NatRecord)
  | [], _, acc => .ok acc
  | l :: ls, pending, acc =>
    let line := pyStrip l
    if pyStartsWith line "object network" then
      match pyGet (pySplitSub line "object network") 1 with
      | .error e => .error e
      | .ok seg => pnGo ls (some (pyStrip seg)) acc
    else
      match pending with
      | some po =>
        if pyStartsWith line "nat (" && !(po == "") then
          match natStaticMatch line with
          | some (si, di, tg) =>
            pnGo ls none (acc ++ [⟨po, si, di, "static", tg, line⟩])
          | none => pnGo ls none acc
        else pnGo ls (some po) acc
      | none => pnGo ls none acc

/-- `parse_object_nat` from `script.py`. -/
def parse_object_nat (lines : List String) : Except String (List NatRecord) :=
  pnGo lines none []

/-- The object name `parse_object_nat` stores after an `object network`
declaration line. -/
def pendingNameOf (line : String) : String :=
  pyStrip ((pySplitSub (pyStrip line) "object network").getD 1 "")

/-! ## ACL line recognizer (`parse_acl_line`, `parse_acls`) -/

structure AclRecord where
  acl_name : String
  action : String
  protocol : String
  source_zone : String
  source_type : String
  source_value : String
  source_port : String
  destination_zone : String
  destination_type : String
  destination_value : String
  destination_port : String
  rule_id : String
  raw : String
deriving DecidableEq, Repr

/-- The `result` dict as initialised at the top of `parse_acl_line`. -/
def aclInit (line : String) : AclRecord :=
  ⟨"", "", "", "", "", "", "", "", "", "", "", "", pyStrip line⟩

/-- Python `list.index` as an option (first occurrence). -/
def pyIndexOf (a : String) : List String → Option Nat
  | [] => none
  | x :: xs => if x == a then some 0 else (pyIndexOf a xs).map (· + 1)

/-- Walk state: the partially filled record and the cursor `idx`. -/
abbrev WalkSt := AclRecord × Nat

/-- Walk result: the state plus a pending exception message, modelling the
fact that Python mutations performed before a raise persist into `except`. -/
abbrev WalkRes := WalkSt × Option String

/-- `result["acl_name"] = tokens[1]; result["action"] = tokens[3];
result["protocol"] = tokens[4]; idx = 5` with each index fallible in order. -/
def stepRequired (ts : List String) (st : WalkSt) : WalkRes :=
  match ts.get? 1 with
  | none => (st, some idxMsg)
  | some a =>
    let st1 : WalkSt := ({ st.1 with acl_name := a }, st.2)
    match ts.get? 3 with
    | none => (st1, some idxMsg)
    | some b =>
      let st2 : WalkSt := ({ st1.1 with action := b }, st1.2)
      match ts.get? 4 with
      | none => (st2, some idxMsg)
      | some c => (({ st2.1 with protocol := c }, 5), none)

/-- `if tokens[idx] == "ifc": ...` — the cursor read is unguarded. -/
def stepSrcZone (ts : List String) (st : WalkSt) : WalkRes :=
  match ts.get? st.2 with
  | none => (st, some idxMsg)
  | some t =>
    if t == "ifc" then
      match ts.get? (st.2 + 1) with
      | none => (st, some idxMsg)
      | some z => (({ st.1 with source_zone := z }, st.2 + 2), none)
    else (st, none)

/-- Source endpoint: typed (`object`/`object-group`/`host`) or implicit
`any`; the cursor read is unguarded. -/
def stepSrcEndpoint (ts : List String) (st : WalkSt) : WalkRes :=
  match ts.get? st.2 with
  | none => (st, some idxMsg)
  | some t =>
    if t == "object" || t == "object-group" || t == "host" then
      let r1 := { st.1 with source_type := t }
      match ts.get? (st.2 + 1) with
      | none => ((r1, st.2), some idxMsg)
      | some v => (({ r1 with source_value := v }, st.2 + 2), none)
    else
      (({ st.1 with source_type := "any", source_value := t }, st.2 + 1), none)

/-- Optional source port qualifier; the keyword read is guarded by
`idx < len(tokens)`, the operand reads are not. -/
def stepSrcPort (ts : List String) (st : WalkSt) : WalkRes :=
  match ts.get? st.2 with
  | none => (st, none)
  | some t =>
    if t == "range" then
      match ts.get? (st.2 + 1) with
      | none => (st, some idxMsg)
      | some x =>
        match ts.get? (st.2 + 2) with
        | none => (st, some idxMsg)
        | some y => (({ st.1 with source_port := x ++ "-" ++ y }, st.2 + 3), none)
    else if t == "eq" || t == "gt" || t == "lt" || t == "neq" then
      match ts.get? (st.2 + 1) with
      | none => (st, some idxMsg)
      | some x => (({ st.1 with source_port := x }, st.2 + 2), none)
    else (st, none)

/-- Optional destination zone (guarded keyword read). -/
def stepDstZone (ts : List String) (st : WalkSt) : WalkRes :=
  match ts.get? st.2 with
  | none => (st, none)
  | some t =>
    if t == "ifc" then
      match ts.get? (st.2 + 1) with
      | none => (st, some idxMsg)
      | some z => (({ st.1 with destination_zone := z }, st.2 + 2), none)
    else (st, none)

/-- Destination endpoint, attempted only while tokens remain. -/
def stepDstEndpoint (ts : List String) (st : WalkSt) : WalkRes :=
  match ts.get? st.2 with
  | none => (st, none)
  | some t =>
    if t == "object" || t == "object-group" || t == "host" then
      let r1 := { st.1 with destination_type := t }
      match ts.get? (st.2 + 1) with
      | none => ((r1, st.2), some idxMsg)
      | some v => (({ r1 with destination_value := v }, st.2 + 2), none)
    else
      (({ st.1 with destination_type := "any", destination_value := t },
        st.2 + 1), none)

/-- Optional destination port qualifier. -/
def stepDstPort (ts : List String) (st : WalkSt) : WalkRes :=
  match ts.get? st.2 with
  | none => (st, none)
  | some t =>
    if t == "range" then
      match ts.get? (st.2 + 1) with
      | none => (st, some idxMsg)
      | some x =>
        match ts.get? (st.2 + 2) with
        | none => (st, some idxMsg)
        | some y => (({ st.1 with destination_port := x ++ "-" ++ y }, st.2 + 3), none)
    else if t == "eq" || t == "gt" || t == "lt" || t == "neq" then
      match ts.get? (st.2 + 1) with
      | none => (st, some idxMsg)
      | some x => (({ st.1 with destination_port := x }, st.2 + 2), none)
    else (st, none)

/-- `if "rule-id" in tokens: ... tokens[tokens.index("rule-id") + 1]`. -/
def stepRuleId (ts : List String) (st : WalkSt) : WalkRes :=
  match pyIndexOf "rule-id" ts with
  | none => (st, none)
  | some j =>
    match ts.get? (j + 1) with
    | none => (st, some idxMsg)
    | some v => (({ st.1 with rule_id := v }, st.2), none)

/-- Sequencing inside the `try` block: once an exception is pending the
remaining statements are skipped and the mutated-so-far state is kept. -/
def andThenW (x : WalkRes) (f : WalkSt → WalkRes) : WalkRes :=
  match x with
  | (st, none) => f st
  | (st, some e) => (st, some e)

/-- The whole `try` body of `parse_acl_line`. -/
def aclWalk (ts : List String) (r0 : AclRecord) : WalkRes :=
  andThenW (andThenW (andThenW (andThenW (andThenW (andThenW (andThenW
    (stepRequired ts (r0, 0))
    (stepSrcZone ts)) (stepSrcEndpoint ts)) (stepSrcPort ts))
    (stepDstZone ts)) (stepDstEndpoint ts)) (stepDstPort ts)) (stepRuleId ts)

/-- `parse_acl_line` from `script.py`: `None` when the line has no tokens or
the first token is not `access-list`; otherwise the walked record, with the
`except` branch appending the diagnostic to `raw`. -/
def parse_acl_line (line : String) : Option AclRecord :=
  let r0 := aclInit line
  let ts := pySplitWs (pyStrip line)
  match ts with
  | [] => none
  | t0 :: _ =>
    if t0 == "access-list" then
      match aclWalk ts r0 with
      | ((r, _), none) => some r
      | ((r, _), some e) => some { r with raw := r.raw ++ ("  # Parse error: " ++ e) }
    else none

/-- `parse_acls` from `script.py`: lines starting with `access-list` and
containing the substring `advanced`. -/
def parse_acls (lines : List String) : List AclRecord :=
  lines.filterMap fun l =>
    if pyStartsWith l "access-list" && subOccurs "advanced".toList l.toList then
      parse_acl_line l
    else none

/-- The walk steps after the required-field reads never touch the three
required fields nor the raw line. -/
def coreKept (a b : AclRecord) : Prop :=
  a.acl_name = b.acl_name ∧ a.action = b.action ∧ a.protocol = b.protocol ∧
  a.raw = b.raw

/-! ## ACL walk lemmas -/

lemma coreKept_refl (a : AclRecord) : coreKept a a := ⟨rfl, rfl, rfl, rfl⟩

lemma coreKept_trans {a b c : AclRecord} (h1 : coreKept a b)
    (h2 : coreKept b c) : coreKept a c :=
  ⟨h1.1.trans h2.1, h1.2.1.trans h2.2.1, h1.2.2.1.trans h2.2.2.1,
   h1.2.2.2.trans h2.2.2.2⟩

lemma stepSrcZone_core (ts : List String) (st : WalkSt) :
    coreKept ((stepSrcZone ts st).1.1) st.1 := by
  unfold stepSrcZone
  repeat' split
  all_goals exact ⟨rfl, rfl, rfl, rfl⟩

lemma stepSrcEndpoint_core (ts : List String) (st : WalkSt) :
    coreKept ((stepSrcEndpoint ts st).1.1) st.1 := by
  unfold stepSrcEndpoint
  repeat' split
  all_goals exact ⟨rfl, rfl, rfl, rfl⟩

lemma stepSrcPort_core (ts : List String) (st : WalkSt) :
    coreKept ((stepSrcPort ts st).1.1) st.1 := by
  unfold stepSrcPort
  repeat' split
  all_goals exact ⟨rfl, rfl, rfl, rfl⟩

lemma stepDstZone_core (ts : List String) (st : WalkSt) :
    coreKept ((stepDstZone ts st).1.1) st.1 := by
  unfold stepDstZone
  repeat' split
  all_goals exact ⟨rfl, rfl, rfl, rfl⟩

lemma stepDstEndpoint_core (ts : List String) (st : WalkSt) :
    coreKept ((stepDstEndpoint ts st).1.1) st.1 := by
  unfold stepDstEndpoint
  repeat' split
  all_goals exact ⟨rfl, rfl, rfl, rfl⟩

lemma stepDstPort_core (ts : List String) (st : WalkSt) :
    coreKept ((stepDstPort ts st).1.1) st.1 := by
  unfold stepDstPort
  repeat' split
  all_goals exact ⟨rfl, rfl, rfl, rfl⟩

lemma stepRuleId_core (ts : List String) (st : WalkSt) :
    coreKept ((stepRuleId ts st).1.1) st.1 := by
  unfold stepRuleId
  repeat' split
  all_goals exact ⟨rfl, rfl, rfl, rfl⟩

lemma stepRequired_raw (ts : List String) (st : WalkSt) :
    ((stepRequired ts st).1.1).raw = st.1.raw := by
  unfold stepRequired
  repeat' split
  all_goals rfl

lemma andThenW_core (x : WalkRes) (f : WalkSt → WalkRes)
    (hf : ∀ st, coreKept ((f st).1.1) st.1) :
    coreKept ((andThenW x f).1.1) x.1.1 := by
  rcases x with ⟨st, e⟩
  cases e with
  | none => exact hf st
  | some e => exact coreKept_refl _

lemma aclWalk_core (ts : List String) (r0 : AclRecord) :
    coreKept ((aclWalk ts r0).1.1) ((stepRequired ts (r0, 0)).1.1) := by
  unfold aclWalk
  refine coreKept_trans (andThenW_core _ _ (stepRuleId_core ts)) ?_
  refine coreKept_trans (andThenW_core _ _ (stepDstPort_core ts)) ?_
  refine coreKept_trans (andThenW_core _ _ (stepDstEndpoint_core ts)) ?_
  refine coreKept_trans (andThenW_core _ _ (stepDstZone_core ts)) ?_
  refine coreKept_trans (andThenW_core _ _ (stepSrcPort_core ts)) ?_
  refine coreKept_trans (andThenW_core _ _ (stepSrcEndpoint_core ts)) ?_
  exact andThenW_core _ _ (stepSrcZone_core ts)

lemma stepRequired_ok (ts : List String) (r0 : AclRecord) (a b c : String)
    (h1 : ts.get? 1 = some a) (h3 : ts.get? 3 = some b)
    (h4 : ts.get? 4 = some c) :
    stepRequired ts (r0, 0) =
      (({ r0 with acl_name := a, action := b, protocol := c }, 5), none) := by
  unfold stepRequired
  rw [h1, h3, h4]

lemma stepRequired_err (ts : List String) (r0 : AclRecord)
    (h4 : ts.get? 4 = none) :
    ∃ st : WalkSt, stepRequired ts (r0, 0) = (st, some idxMsg) ∧
      st.1.raw = r0.raw ∧ st.1.protocol = r0.protocol := by
  unfold stepRequired
  cases ts.get? 1 with
  | none => exact ⟨(r0, 0), rfl, rfl, rfl⟩
  | some a =>
    cases ts.get? 3 with
    | none => exact ⟨_, rfl, rfl, rfl⟩
    | some b =>
      rw [h4]
      exact ⟨_, rfl, rfl, rfl⟩

lemma aclWalk_of_required_err (ts : List String) (r0 : AclRecord)
    (st : WalkSt) (e : String) (h : stepRequired ts (r0, 0) = (st, some e)) :
    aclWalk ts r0 = (st, some e) := by
  unfold aclWalk
  rw [h]
  rfl

lemma parse_acls_cons (l : String) (rest : List String) :
    parse_acls (l :: rest) = parse_acls [l] ++ parse_acls rest := by
  unfold parse_acls
  by_cases hc : (pyStartsWith l "access-list" &&
      subOccurs "advanced".toList l.toList) = true
  · simp only [List.filterMap_cons, hc, if_true]
    cases parse_acl_line l <;> simp
  · simp only [List.filterMap_cons, hc, if_false]
    simp

/-! ## Claim theorems: concrete evaluations -/

/-- C9: the route recognizer maps
`route outside 10.0.0.0 255.0.0.0 192.168.1.1 1` to the record
{interface: outside, destination: 10.0.0.0, netmask: 255.0.0.0,
gateway: 192.168.1.1, metric: "1"}, and the same line without the trailing
`1` to the same record with metric equal to the empty string. -/
theorem C9_route_line_examples :
    parse_routes ["route outside 10.0.0.0 255.0.0.0 192.168.1.1 1"] =
      [⟨"outside", "10.0.0.0", "255.0.0.0", "192.168.1.1", "1"⟩] ∧
    parse_routes ["route outside 10.0.0.0 255.0.0.0 192.168.1.1"] =
      [⟨"outside", "10.0.0.0", "255.0.0.0", "192.168.1.1", ""⟩] := by
  constructor <;> rfl

/-- C8 counterexample: the quoted ACL line contains the marker `extended`,
not `advanced`, so the ACL pass `parse_acls` (whose filter requires the
substring `advanced`) yields no record at all for it — contradicting the
claim that this line, processed by the recognizer with that filter, yields a
populated record. -/
theorem C8_counterexample :
    parse_acls ["access-list OUTSIDE_IN extended permit tcp object WEBSRV eq 443 any rule-id 268435456"] = [] := by
  rfl

/-- C8 amended: the per-line parser `parse_acl_line` does map the quoted
`extended` line to source_type=object, source_value=WEBSRV, source_port=443,
destination_type=any, destination_value=any, rule_id=268435456; the ACL
pass itself drops that line (its filter wants `advanced`), and the same
line with `advanced` in place of `extended` flows through `parse_acls` to
exactly one record with those same field values. -/
theorem C8_acl_line_fields :
    parse_acl_line "access-list OUTSIDE_IN extended permit tcp object WEBSRV eq 443 any rule-id 268435456" =
      some ⟨"OUTSIDE_IN", "permit", "tcp", "", "object", "WEBSRV", "443",
            "", "any", "any", "", "268435456",
            "access-list OUTSIDE_IN extended permit tcp object WEBSRV eq 443 any rule-id 268435456"⟩ ∧
    parse_acls ["access-list OUTSIDE_IN advanced permit tcp object WEBSRV eq 443 any rule-id 268435456"] =
      [⟨"OUTSIDE_IN", "permit", "tcp", "", "object", "WEBSRV", "443",
        "", "any", "any", "", "268435456",
        "access-list OUTSIDE_IN advanced permit tcp object WEBSRV eq 443 any rule-id 268435456"⟩] := by
  constructor <;> rfl

/-- C4 counterexample: after `object network O`, the line
`nat (a,b) dynamic T` begins with `nat (` but does not match the static
pattern; it nevertheless clears the pending object name (the reset sits
outside the regex-match test), so the following `nat (c,d) static U` finds
no pending object and the recognizer emits no record — contradicting the
claim that the matching static line still pairs with the object. -/
theorem C4_counterexample :
    parse_object_nat ["object network O", "nat (a,b) dynamic T",
      "nat (c,d) static U"] = .ok [] := by
  rfl

/-- C1 counterexample: the line `access-list A advanced` has too few tokens
for the three required fields (action at token 3 is missing), yet the
recognizer does NOT filter it out: `parse_acl_line` returns an
error-annotated record (the `try/except` also wraps the required-field
reads), and the line flows through `parse_acls` as one record. -/
theorem C1_counterexample :
    parse_acl_line "access-list A advanced" ≠ none ∧
    parse_acls ["access-list A advanced"] =
      [⟨"A", "", "", "", "", "", "", "", "", "", "", "",
        "access-list A advanced  # Parse error: list index out of range"⟩] := by
  constructor
  · intro h; simp [parse_acl_line, pyStrip, stripList, pySplitWs, splitWsGo,
      isPySpace, aclWalk, andThenW, stepRequired, aclInit] at h
  · rfl

/-- C2 counterexample: the interface recognizer raises an uncontained
index error on the malformed short line consisting of only the field
keyword `nameif` (`line.split()[1]` with a single token), so not every
recognizer returns its record collection for arbitrary input. -/
theorem C2_counterexample :
    parse_interfaces ["nameif"] = .error "list index out of range" := by
  rfl

/-- C5 counterexample: a `nameif` line with no in-progress record is not
ignored: Python happily assigns into the empty `current` dict, creating a
record containing only the Name key, which is finalized at end-of-input —
so the output has one record despite zero interface declarations and zero
terminated blocks. -/
theorem C5_counterexample :
    parse_interfaces ["nameif inside"] =
      .ok [⟨none, some "inside", none, none, none, none, none⟩] := by
  rfl

/-- C5 amended: a logical-name line seen when no in-progress record exists
starts a partial record holding only the Name key; that partial record is
finalized at the next interface declaration (or terminator or end of
input), so the output collection can contain one more record than the
interface declarations and terminated blocks account for. -/
theorem C5_nameif_partial_record :
    parse_interfaces ["nameif inside", "interface Gi1", "!"] =
      .ok [⟨none, some "inside", none, none, none, none, none⟩,
           freshIntf "Gi1"] := by
  rfl

/-! ## Helper lemmas about the Python string primitives -/

lemma splitSubFuel_length_pos (sep : List Char) :
    ∀ n cs acc, 0 < (splitSubFuel sep n cs acc).length := by
  intro n
  induction n with
  | zero => intro cs acc; cases cs <;> simp [splitSubFuel]
  | succ n ih =>
    intro cs acc
    cases cs with
    | nil => simp [splitSubFuel]
    | cons c cs =>
      simp only [splitSubFuel]
      split
      · simp
      · exact ih cs _

lemma pySplitSub_length_ge_two (s sep : String) (hsep : sep.toList ≠ [])
    (h : pyStartsWith s sep = true) : 2 ≤ (pySplitSub s sep).length := by
  unfold pyStartsWith at h
  unfold pySplitSub
  cases hcs : s.toList with
  | nil =>
    rw [hcs] at h
    cases hp : sep.toList with
    | nil => exact absurd hp hsep
    | cons a as => rw [hp] at h; simp [List.isPrefixOf] at h
  | cons c cs =>
    rw [hcs] at h
    simp only [List.length_cons, splitSubFuel, List.length_map]
    rw [if_pos]
    · have := splitSubFuel_length_pos sep.toList cs.length
        (cs.drop (sep.toList.length - 1)) []
      simp only [List.length_cons]
      omega
    · simp only [Bool.and_eq_true, Bool.not_eq_true']
      exact ⟨by simpa [List.isEmpty_iff] using hsep, h⟩

lemma pyGet_objectName (line : String)
    (h : pyStartsWith (pyStrip line) "object network" = true) :
    pyGet (pySplitSub (pyStrip line) "object network") 1 =
      .ok ((pySplitSub (pyStrip line) "object network").getD 1 "") := by
  have hlen := pySplitSub_length_ge_two (pyStrip line) "object network" (by decide) h
  unfold pyGet
  rcases hxs : pySplitSub (pyStrip line) "object network" with _ | ⟨a, _ | ⟨b, xs⟩⟩
  · rw [hxs] at hlen; simp at hlen
  · rw [hxs] at hlen; simp at hlen
  · rfl

lemma pyStartsWith_head (s p : String) (c : Char)
    (h : pyStartsWith s p = true) (hp : p.toList.head? = some c) :
    s.toList.head? = some c := by
  unfold pyStartsWith at h
  cases hl : p.toList with
  | nil => rw [hl] at hp; cases hp
  | cons a as =>
    rw [hl] at hp h
    cases hsl : s.toList with
    | nil => rw [hsl] at h; simp [List.isPrefixOf] at h
    | cons b bs =>
      rw [hsl] at h
      simp only [List.isPrefixOf, Bool.and_eq_true, beq_iff_eq] at h
      simp only [List.head?, Option.some.injEq] at hp ⊢
      rw [← h.1, hp]

lemma natStaticMatch_startsWith (s : String) (x : String × String × String)
    (h : natStaticMatch s = some x) : pyStartsWith s "nat (" = true := by
  by_cases hs : pyStartsWith s "nat (" = true
  · exact hs
  · unfold natStaticMatch at h
    rw [if_neg hs] at h
    cases h

lemma not_object_of_nat (s : String) (h : pyStartsWith s "nat (" = true) :
    pyStartsWith s "object network" = false := by
  cases hob : pyStartsWith s "object network" with
  | false => rfl
  | true =>
    have h1 := pyStartsWith_head s "nat (" 'n' h (by decide)
    have h2 := pyStartsWith_head s "object network" 'o' hob (by decide)
    rw [h1] at h2
    cases h2

/-! ## Claim theorems: object-NAT recognizer -/

lemma pnGo_ok : ∀ (ls : List String) (pending : Option String)
    (acc : List NatRecord), ∃ v, pnGo ls pending acc = .ok v := by
  intro ls
  induction ls with
  | nil => intro pending acc; exact ⟨acc, rfl⟩
  | cons l ls ih =>
    intro pending acc
    rcases pending with _ | po
    · simp only [pnGo]
      by_cases h1 : pyStartsWith (pyStrip l) "object network" = true
      · simp only [if_pos h1, pyGet_objectName l h1]
        exact ih _ _
      · simp only [if_neg h1]
        exact ih _ _
    · simp only [pnGo]
      by_cases h1 : pyStartsWith (pyStrip l) "object network" = true
      · simp only [if_pos h1, pyGet_objectName l h1]
        exact ih _ _
      · simp only [if_neg h1]
        by_cases h2 : (pyStartsWith (pyStrip l) "nat (" && !(po == "")) = true
        · simp only [if_pos h2]
          rcases hm : natStaticMatch (pyStrip l) with _ | ⟨si, di, tg⟩ <;>
            simp only [hm] <;> exact ih _ _
        · simp only [if_neg h2]
          exact ih _ _

/-- C2 amended: the route, object-NAT and ACL recognizers contain every
fault and return a record collection for arbitrary input (in this embedding
`parse_routes`, `parse_acl_line` and `parse_acls` are total functions, and
`parse_object_nat` — whose one fallible list access sits behind the
`object network` prefix guard — is proved here to never raise), but the
interface recognizer does raise an uncontained index error on malformed
short lines such as a bare field keyword (see the counterexample). -/
theorem C2_object_nat_never_raises (lines : List String) :
    ∃ v, parse_object_nat lines = .ok v :=
  pnGo_ok lines none []

/-- C4 amended: the pending object name is cleared by ANY line beginning
with `nat (` while a pending name exists — the reset happens whether or not
the line matches the full static pattern.  Hence after an object
declaration followed by a non-matching nat-prefixed line, the recognizer
behaves on the remaining input exactly as if it had started fresh: a later
matching static line finds no pending object and produces nothing for it. -/
theorem C4_nonmatching_nat_clears_pending (objLine natLine : String)
    (rest : List String)
    (h1 : pyStartsWith (pyStrip objLine) "object network" = true)
    (h2 : pendingNameOf objLine ≠ "")
    (h3 : pyStartsWith (pyStrip natLine) "nat (" = true)
    (h4 : natStaticMatch (pyStrip natLine) = none) :
    parse_object_nat (objLine :: natLine :: rest) = parse_object_nat rest := by
  unfold parse_object_nat
  have hno : pyStartsWith (pyStrip natLine) "object network" = false :=
    not_object_of_nat _ h3
  have hpo : (pyStrip ((pySplitSub (pyStrip objLine) "object network").getD 1 "")
      == "") = false := by
    have h2' := h2
    unfold pendingNameOf at h2'
    simpa [beq_eq_false_iff_ne] using h2'
  simp only [pnGo, if_pos h1, pyGet_objectName objLine h1, hno,
    Bool.false_eq_true, if_false, h3, Bool.true_and, hpo, Bool.not_false,
    if_true, h4]

/-- C4 witness: concrete instance of the amended clearing behaviour. -/
theorem C4_witness :
    parse_object_nat ["object network O", "nat (a,b) dynamic T",
      "nat (c,d) static U"] = parse_object_nat ["nat (c,d) static U"] :=
  C4_nonmatching_nat_clears_pending "object network O" "nat (a,b) dynamic T"
    ["nat (c,d) static U"] (by decide) (by decide) (by decide) (by decide)

/-- C7: `object network WEBSRV` followed by
`nat (inside,outside) static WEBSRV-NAT` yields exactly one NatRecord
pairing WEBSRV with WEBSRV-NAT; and for any object declaration followed by
two static NAT lines with no intervening object declaration, exactly one
record is produced — the first static line consumes the pending name and
the second yields nothing. -/
theorem C7_one_shot_pairing :
    (parse_object_nat ["object network WEBSRV",
        "nat (inside,outside) static WEBSRV-NAT"] =
      .ok [⟨"WEBSRV", "inside", "outside", "static", "WEBSRV-NAT",
            "nat (inside,outside) static WEBSRV-NAT"⟩]) ∧
    (∀ (objLine n1 n2 : String) (si di tg : String),
      pyStartsWith (pyStrip objLine) "object network" = true →
      pendingNameOf objLine ≠ "" →
      natStaticMatch (pyStrip n1) = some (si, di, tg) →
      (natStaticMatch (pyStrip n2)).isSome = true →
      parse_object_nat [objLine, n1, n2] =
        .ok [⟨pendingNameOf objLine, si, di, "static", tg, pyStrip n1⟩]) := by
  constructor
  · rfl
  · intro objLine n1 n2 si di tg h1 h2 hm1 hm2
    have h3 : pyStartsWith (pyStrip n1) "nat (" = true :=
      natStaticMatch_startsWith _ _ hm1
    rcases hx : natStaticMatch (pyStrip n2) with _ | x
    · rw [hx] at hm2; cases hm2
    have h3' : pyStartsWith (pyStrip n2) "nat (" = true :=
      natStaticMatch_startsWith _ _ hx
    have hno1 : pyStartsWith (pyStrip n1) "object network" = false :=
      not_object_of_nat _ h3
    have hno2 : pyStartsWith (pyStrip n2) "object network" = false :=
      not_object_of_nat _ h3'
    have hpo : (pyStrip ((pySplitSub (pyStrip objLine) "object network").getD 1 "")
        == "") = false := by
      have h2' := h2
      unfold pendingNameOf at h2'
      simpa [beq_eq_false_iff_ne] using h2'
    unfold parse_object_nat
    simp only [pnGo, if_pos h1, pyGet_objectName objLine h1, hno1, hno2,
      Bool.false_eq_true, if_false, h3, Bool.true_and, hpo, Bool.not_false,
      if_true, hm1]
    rfl

/-- C7 witness: concrete instance of the universal one-shot clause. -/
theorem C7_witness :
    parse_object_nat ["object network A", "nat (x,y) static T",
      "nat (x,y) static T2"] =
      .ok [⟨pendingNameOf "object network A", "x", "y", "static", "T",
            pyStrip "nat (x,y) static T"⟩] :=
  C7_one_shot_pairing.2 "object network A" "nat (x,y) static T"
    "nat (x,y) static T2" "x" "y" "T" (by decide) (by decide) (by decide)
    (by decide)

/-! ## Claim theorems: ACL error containment -/

/-- C1 amended: a line whose token list is too short for the three required
fields is not filtered out: the `try/except` also wraps the required-field
reads, so `parse_acl_line` returns an error-annotated record — whatever
required fields were read, protocol left empty, and the IndexError
diagnostic appended to the raw field — rather than yielding no record. -/
theorem C1_short_line_annotated (l : String)
    (h0 : (pySplitWs (pyStrip l)).get? 0 = some "access-list")
    (h5 : (pySplitWs (pyStrip l)).length < 5) :
    ∃ r, parse_acl_line l = some r ∧
      r.raw = pyStrip l ++ ("  # Parse error: " ++ idxMsg) ∧
      r.protocol = "" := by
  obtain ⟨tt, hts⟩ : ∃ tt, pySplitWs (pyStrip l) = "access-list" :: tt := by
    cases hx : pySplitWs (pyStrip l) with
    | nil => rw [hx] at h0; cases h0
    | cons t0 tt =>
      rw [hx] at h0
      simp only [List.get?_cons_zero, Option.some.injEq] at h0
      exact ⟨tt, by rw [h0]⟩
  rw [hts] at h5
  have h4 : ("access-list" :: tt).get? 4 = none := by
    rw [List.get?_eq_none]
    simp only [List.length_cons] at h5 ⊢
    omega
  obtain ⟨st, hreq, hraw, hproto⟩ :=
    stepRequired_err ("access-list" :: tt) (aclInit l) h4
  have hw : aclWalk ("access-list" :: tt) (aclInit l) = (st, some idxMsg) :=
    aclWalk_of_required_err _ _ _ _ hreq
  refine ⟨{ st.1 with raw := st.1.raw ++ ("  # Parse error: " ++ idxMsg) },
    ?_, ?_, ?_⟩
  · simp only [parse_acl_line, hts]
    rw [if_pos (show ("access-list" == "access-list") = true from rfl), hw]
  · show st.1.raw ++ ("  # Parse error: " ++ idxMsg) =
      pyStrip l ++ ("  # Parse error: " ++ idxMsg)
    rw [hraw]
    rfl
  · show st.1.protocol = ""
    rw [hproto]
    rfl

/-- C1 witness: the short line `access-list A advanced` yields an annotated
record through the amended statement. -/
theorem C1_witness :
    ∃ r, parse_acl_line "access-list A advanced" = some r ∧
      r.raw = pyStrip "access-list A advanced" ++
        ("  # Parse error: " ++ idxMsg) ∧
      r.protocol = "" :=
  C1_short_line_annotated "access-list A advanced" (by decide) (by decide)

/-- C3: once the three required fields were read (first token is
`access-list` and at least five tokens exist), a record is always emitted:
the emitted record carries the required fields from tokens 1, 3 and 4, and
if the optional-clause walk faulted, the record's raw field is the stripped
line with the diagnostic suffix appended; the ACL pass then continues with
the next line (`parse_acls` over a cons splits into the head's records
followed by the tail's). -/
theorem C3_fault_still_emits (l : String) (rest : List String)
    (h0 : (pySplitWs (pyStrip l)).get? 0 = some "access-list")
    (h5 : 5 ≤ (pySplitWs (pyStrip l)).length) :
    ∃ r, parse_acl_line l = some r ∧
      some r.acl_name = (pySplitWs (pyStrip l)).get? 1 ∧
      some r.action = (pySplitWs (pyStrip l)).get? 3 ∧
      some r.protocol = (pySplitWs (pyStrip l)).get? 4 ∧
      (∀ e, (aclWalk (pySplitWs (pyStrip l)) (aclInit l)).2 = some e →
        r.raw = pyStrip l ++ ("  # Parse error: " ++ e)) ∧
      parse_acls (l :: rest) = parse_acls [l] ++ parse_acls rest := by
  obtain ⟨tt, hts⟩ : ∃ tt, pySplitWs (pyStrip l) = "access-list" :: tt := by
    cases hx : pySplitWs (pyStrip l) with
    | nil => rw [hx] at h0; cases h0
    | cons t0 tt =>
      rw [hx] at h0
      simp only [List.get?_cons_zero, Option.some.injEq] at h0
      exact ⟨tt, by rw [h0]⟩
  rw [hts] at h5 ⊢
  obtain ⟨a, ha⟩ : ∃ a, ("access-list" :: tt).get? 1 = some a :=
    ⟨_, List.get?_eq_get (by simp only [List.length_cons] at h5 ⊢; omega)⟩
  obtain ⟨b, hb⟩ : ∃ b, ("access-list" :: tt).get? 3 = some b :=
    ⟨_, List.get?_eq_get (by simp only [List.length_cons] at h5 ⊢; omega)⟩
  obtain ⟨c, hc⟩ : ∃ c, ("access-list" :: tt).get? 4 = some c :=
    ⟨_, List.get?_eq_get (by simp only [List.length_cons] at h5 ⊢; omega)⟩
  have hreq := stepRequired_ok ("access-list" :: tt) (aclInit l) a b c ha hb hc
  have hcore := aclWalk_core ("access-list" :: tt) (aclInit l)
  rw [hreq] at hcore
  rcases hwc : aclWalk ("access-list" :: tt) (aclInit l) with ⟨⟨rr, i⟩, e⟩
  rw [hwc] at hcore
  have hc1 : rr.acl_name = a := hcore.1
  have hc2 : rr.action = b := hcore.2.1
  have hc3 : rr.protocol = c := hcore.2.2.1
  have hc4 : rr.raw = pyStrip l := hcore.2.2.2
  cases e with
  | none =>
    refine ⟨rr, ?_, ?_, ?_, ?_, ?_, parse_acls_cons l rest⟩
    · simp only [parse_acl_line, hts]
      rw [if_pos (show ("access-list" == "access-list") = true from rfl), hwc]
    · rw [ha, hc1]
    · rw [hb, hc2]
    · rw [hc, hc3]
    · intro e' he'
      have hne : (none : Option String) = some e' := he'
      cases hne
  | some e =>
    refine ⟨{ rr with raw := rr.raw ++ ("  # Parse error: " ++ e) },
      ?_, ?_, ?_, ?_, ?_, parse_acls_cons l rest⟩
    · simp only [parse_acl_line, hts]
      rw [if_pos (show ("access-list" == "access-list") = true from rfl), hwc]
    · show some rr.acl_name = _
      rw [ha, hc1]
    · show some rr.action = _
      rw [hb, hc2]
    · show some rr.protocol = _
      rw [hc, hc3]
    · intro e' he'
      have hee : some e = some e' := he'
      injection hee with hee
      subst hee
      show rr.raw ++ ("  # Parse error: " ++ e) =
        pyStrip l ++ ("  # Parse error: " ++ e)
      rw [hc4]

/-- C3 witness: `access-list A advanced permit tcp ifc` reads its three
required fields, then faults reading the zone name after `ifc`; the record
is still emitted with the diagnostic suffix. -/
theorem C3_witness :
    ∃ r, parse_acl_line "access-list A advanced permit tcp ifc" = some r ∧
      some r.acl_name =
        (pySplitWs (pyStrip "access-list A advanced permit tcp ifc")).get? 1 ∧
      some r.action =
        (pySplitWs (pyStrip "access-list A advanced permit tcp ifc")).get? 3 ∧
      some r.protocol =
        (pySplitWs (pyStrip "access-list A advanced permit tcp ifc")).get? 4 ∧
      (∀ e, (aclWalk (pySplitWs (pyStrip "access-list A advanced permit tcp ifc"))
          (aclInit "access-list A advanced permit tcp ifc")).2 = some e →
        r.raw = pyStrip "access-list A advanced permit tcp ifc" ++
          ("  # Parse error: " ++ e)) ∧
      parse_acls ["access-list A advanced permit tcp ifc"] =
        parse_acls ["access-list A advanced permit tcp ifc"] ++ parse_acls [] :=
  C3_fault_still_emits "access-list A advanced permit tcp ifc" []
    (by decide) (by decide)

/-! ## Claim theorems: totality of the single-line ACL parser -/

lemma dropWhile_head_false (p : Char → Bool) :
    ∀ (l : List Char) (c : Char) (t : List Char),
      l.dropWhile p = c :: t → p c = false := by
  intro l
  induction l with
  | nil => intro c t h; cases h
  | cons d ds ih =>
    intro c t h
    rw [List.dropWhile_cons] at h
    by_cases hd : p d = true
    · rw [if_pos hd] at h
      exact ih _ _ h
    · rw [if_neg hd] at h
      cases h
      simpa using hd

lemma dropWhile_sfx (p : Char → Bool) : ∀ l : List Char, l.dropWhile p <:+ l := by
  intro l
  induction l with
  | nil => simp
  | cons d ds ih =>
    rw [List.dropWhile_cons]
    by_cases hd : p d = true
    · rw [if_pos hd]
      exact ih.trans (List.suffix_cons d ds)
    · rw [if_neg hd]

lemma stripList_head_false (cs : List Char) (c : Char) (t : List Char)
    (h : stripList cs = c :: t) : isPySpace c = false := by
  unfold stripList at h
  obtain ⟨pre, hpre⟩ := dropWhile_sfx isPySpace ((cs.dropWhile isPySpace).reverse)
  have hd := congrArg List.reverse h
  rw [List.reverse_reverse] at hd
  rw [hd] at hpre
  have ha := congrArg List.reverse hpre
  rw [List.reverse_append, List.reverse_reverse, List.reverse_reverse] at ha
  exact dropWhile_head_false isPySpace cs c (t ++ pre.reverse)
    (by rw [← ha, List.cons_append])

lemma splitWsGo_acc_ne_nil : ∀ (cs acc : List Char), acc ≠ [] →
    splitWsGo cs acc ≠ [] := by
  intro cs
  induction cs with
  | nil =>
    intro acc h
    simp only [splitWsGo]
    rw [if_neg (by simpa [List.isEmpty_iff] using h)]
    simp
  | cons d ds ih =>
    intro acc h
    simp only [splitWsGo]
    by_cases hd : isPySpace d = true
    · rw [if_pos hd, if_neg (by simpa [List.isEmpty_iff] using h)]
      simp
    · rw [if_neg hd]
      exact ih (d :: acc) (by simp)

lemma pySplitWs_nonempty_strip (l : String) (h : pyStrip l ≠ "") :
    pySplitWs (pyStrip l) ≠ [] := by
  have hs : stripList l.toList ≠ [] := by
    intro hc
    apply h
    unfold pyStrip
    rw [hc]
  cases hc : stripList l.toList with
  | nil => exact absurd hc hs
  | cons c t =>
    have hcf := stripList_head_false l.toList c t hc
    unfold pySplitWs
    have htl : (pyStrip l).toList = stripList l.toList := rfl
    rw [htl, hc]
    simp only [splitWsGo]
    rw [if_neg (by simp [hcf])]
    intro hmap
    exact splitWsGo_acc_ne_nil t [c] (by simp) (List.map_eq_nil_iff.mp hmap)

lemma pySplitWs_strip_eq_nil_iff (l : String) :
    pySplitWs (pyStrip l) = [] ↔ pyStrip l = "" := by
  constructor
  · intro h
    by_contra hne
    exact pySplitWs_nonempty_strip l hne h
  · intro h
    rw [h]
    rfl

lemma str_append_empty (s : String) : s ++ "" = s := by
  cases s with
  | mk data =>
    show String.mk (data ++ []) = String.mk data
    rw [List.append_nil]

/-- C10: `parse_acl_line` is total (no exception escapes: the whole walk is
modelled inside the caught-exception chain) and returns no record exactly
when the stripped line is empty or its first whitespace-delimited token is
not `access-list`; any returned record's raw field begins with the stripped
input line. -/
theorem C10_acl_line_none_iff (l : String) :
    (parse_acl_line l = none ↔
      (pyStrip l = "" ∨ (pySplitWs (pyStrip l)).head? ≠ some "access-list")) ∧
    (∀ r, parse_acl_line l = some r → ∃ t, r.raw = pyStrip l ++ t) := by
  have hraw : ((aclWalk (pySplitWs (pyStrip l)) (aclInit l)).1.1).raw =
      pyStrip l :=
    ((aclWalk_core (pySplitWs (pyStrip l)) (aclInit l)).2.2.2).trans
      (stepRequired_raw (pySplitWs (pyStrip l)) (aclInit l, 0))
  constructor
  · cases hts : pySplitWs (pyStrip l) with
    | nil =>
      have hstr : pyStrip l = "" := (pySplitWs_strip_eq_nil_iff l).mp hts
      constructor
      · intro _
        exact Or.inl hstr
      · intro _
        simp only [parse_acl_line, hts]
    | cons t0 tt =>
      have hne : ¬ pyStrip l = "" := by
        intro hh
        rw [(pySplitWs_strip_eq_nil_iff l).mpr hh] at hts
        cases hts
      by_cases ht0 : t0 = "access-list"
      · subst ht0
        constructor
        · intro hp
          exfalso
          simp only [parse_acl_line, hts] at hp
          rw [if_pos (show ("access-list" == "access-list") = true from rfl)]
            at hp
          rcases hwc : aclWalk ("access-list" :: tt) (aclInit l) with ⟨⟨r, i⟩, e⟩
          rw [hwc] at hp
          cases e <;> simp at hp
        · intro hdisj
          rcases hdisj with hstr | hhead
          · exact absurd hstr hne
          · exact absurd rfl hhead
      · have hbeq : (t0 == "access-list") = false := by
          simpa using ht0
        constructor
        · intro _
          right
          simp [ht0]
        · intro _
          simp only [parse_acl_line, hts]
          rw [if_neg (by simp [hbeq])]
  · intro r hp
    cases hts : pySplitWs (pyStrip l) with
    | nil =>
      simp only [parse_acl_line, hts] at hp
      cases hp
    | cons t0 tt =>
      rw [hts] at hraw
      by_cases ht0 : t0 = "access-list"
      · subst ht0
        simp only [parse_acl_line, hts] at hp
        rw [if_pos (show ("access-list" == "access-list") = true from rfl)]
          at hp
        rcases hwc : aclWalk ("access-list" :: tt) (aclInit l) with ⟨⟨rr, i⟩, e⟩
        rw [hwc] at hp hraw
        have hrr : rr.raw = pyStrip l := hraw
        cases e with
        | none =>
          have hh : some rr = some r := hp
          injection hh with hh
          refine ⟨"", ?_⟩
          rw [← hh, hrr, str_append_empty]
        | some e =>
          have hh : some ({ rr with raw := rr.raw ++ ("  # Parse error: " ++ e) }
            : AclRecord) = some r := hp
          injection hh with hh
          refine ⟨"  # Parse error: " ++ e, ?_⟩
          rw [← hh]
          show rr.raw ++ ("  # Parse error: " ++ e) =
            pyStrip l ++ ("  # Parse error: " ++ e)
          rw [hrr]
      · have hbeq : (t0 == "access-list") = false := by
          simpa using ht0
        simp only [parse_acl_line, hts] at hp
        rw [if_neg (by simp [hbeq])] at hp
        cases hp

/-- C10 witness: a well-formed line flows to a record whose raw field is the
stripped line itself. -/
theorem C10_witness :
    ∃ t, (⟨"B", "permit", "ip", "", "any", "any", "", "", "any", "any", "",
      "", "access-list B advanced permit ip any any"⟩ : AclRecord).raw =
      pyStrip "access-list B advanced permit ip any any" ++ t :=
  (C10_acl_line_none_iff "access-list B advanced permit ip any any").2 _ rfl

/-! ## Claim theorems: interface block counting -/

lemma pyStartsWith_excl (s p q : String) (hp : pyStartsWith s p = true)
    (hpq : (p.toList.isPrefixOf q.toList || q.toList.isPrefixOf p.toList)
      = false) : pyStartsWith s q = false := by
  cases hq : pyStartsWith s q with
  | false => rfl
  | true =>
    exfalso
    unfold pyStartsWith at hp hq
    have hp' : p.toList <+: s.toList := List.isPrefixOf_iff_prefix.mp hp
    have hq' : q.toList <+: s.toList := List.isPrefixOf_iff_prefix.mp hq
    rcases List.prefix_or_prefix_of_prefix hp' hq' with hh | hh
    · rw [List.isPrefixOf_iff_prefix.mpr hh] at hpq
      simp at hpq
    · rw [List.isPrefixOf_iff_prefix.mpr hh] at hpq
      simp at hpq

lemma pyGet_ok_of_lt (xs : List String) (i : Nat) (h : i < xs.length) :
    ∃ w, pyGet xs i = .ok w := by
  unfold pyGet
  rw [List.get?_eq_get h]
  exact ⟨_, rfl⟩

lemma pyLast_ok_of_ne_nil (xs : List String) (h : xs ≠ []) :
    ∃ w, pyLast xs = .ok w := by
  unfold pyLast
  obtain ⟨w, hw⟩ := Option.isSome_iff_exists.mp (List.getLast?_isSome.mpr h)
  rw [hw]
  exact ⟨w, rfl⟩

lemma piGo_count : ∀ (ls : List String) (inB : Bool) (cur : IntfDict)
    (acc : List IntfDict),
    validBlocks ls inB = true →
    (inB = true → cur.truthy = true) →
    (inB = false → cur = {}) →
    ∃ recs, piGo ls cur acc = .ok recs ∧
      recs.length = acc.length + ls.countP isTermLine +
        (if endsOpen ls inB then 1 else 0) := by
  intro ls
  induction ls with
  | nil =>
    intro inB cur acc _ ht hf
    cases inB with
    | true =>
      refine ⟨acc ++ [cur], ?_, ?_⟩
      · simp only [piGo, ht rfl, if_true]
      · simp [endsOpen]
    | false =>
      obtain rfl := hf rfl
      refine ⟨acc, ?_, ?_⟩
      · simp [piGo, IntfDict.truthy]
      · simp [endsOpen]
  | cons l ls ih =>
    intro inB cur acc hv ht hf
    by_cases hd : isDeclLine l = true
    · -- declaration line: only valid outside a block
      simp only [validBlocks, hd, if_true, Bool.and_eq_true, Bool.not_eq_true']
        at hv
      obtain ⟨hinB, hv2⟩ := hv
      obtain rfl := hf hinB
      obtain ⟨hdp, hdt⟩ : pyStartsWith (pyStrip l) "interface " = true ∧
          2 ≤ tokCount l := by
        have hx := hd
        unfold isDeclLine at hx
        simpa [Bool.and_eq_true] using hx
      obtain ⟨w, hw⟩ := pyGet_ok_of_lt (pySplitWs (pyStrip l)) 1
        (by unfold tokCount at hdt; omega)
      obtain ⟨recs, hrec, hlen⟩ := ih true (freshIntf w) acc hv2
        (fun _ => rfl) (fun h => by cases h)
      have hterm : isTermLine l = false := by
        cases hit : isTermLine l with
        | false => rfl
        | true =>
          exfalso
          have hts : pyStrip l = "!" := by
            have hx := hit
            unfold isTermLine at hx
            simpa using hx
          rw [hts] at hdp
          exact absurd hdp (by decide)
      refine ⟨recs, ?_, ?_⟩
      · simp only [piGo, hdp, if_true, hw]
        simpa [IntfDict.truthy] using hrec
      · rw [List.countP_cons, hterm]
        simp only [endsOpen, hd, if_true]
        cases ho : endsOpen ls true with
        | true =>
          simp only [ho, eq_self_iff_true, if_true, Bool.false_eq_true,
              if_false, List.length_append, List.length_singleton] at hlen ⊢
          omega
        | false =>
          simp only [ho, eq_self_iff_true, if_true, Bool.false_eq_true,
              if_false, List.length_append, List.length_singleton] at hlen ⊢
          omega
    · have hd' : isDeclLine l = false := by simpa using hd
      by_cases hterm : isTermLine l = true
      · -- terminator line: only valid inside a block
        have hstrip : pyStrip l = "!" := by
          have hx := hterm
          unfold isTermLine at hx
          simpa using hx
        simp only [validBlocks, hd', Bool.false_eq_true, if_false, hterm,
          if_true, Bool.and_eq_true] at hv
        obtain ⟨hinB, hv2⟩ := hv
        have htr : cur.truthy = true := ht hinB
        obtain ⟨recs, hrec, hlen⟩ := ih false {} (acc ++ [cur]) hv2
          (fun h => by cases h) (fun _ => rfl)
        refine ⟨recs, ?_, ?_⟩
        · simp only [piGo]
          rw [hstrip]
          simp only [show pyStartsWith "!" "interface " = false from rfl,
            show pyStartsWith "!" "nameif" = false from rfl,
            show pyStartsWith "!" "security-level" = false from rfl,
            show pyStartsWith "!" "ip address" = false from rfl,
            show pyStartsWith "!" "vlan" = false from rfl,
            Bool.false_eq_true, if_false,
            show ("!" == "!") = true from rfl, htr, Bool.and_self, if_true]
          exact hrec
        · rw [List.countP_cons, hterm]
          simp only [endsOpen, hd', Bool.false_eq_true, if_false, hterm,
            if_true]
          cases ho : endsOpen ls false with
          | true =>
            simp only [ho, eq_self_iff_true, if_true, Bool.false_eq_true,
              if_false, List.length_append, List.length_singleton] at hlen ⊢
            omega
          | false =>
            simp only [ho, eq_self_iff_true, if_true, Bool.false_eq_true,
              if_false, List.length_append, List.length_singleton] at hlen ⊢
            omega
      · -- field line: only valid inside a block
        have hterm' : isTermLine l = false := by simpa using hterm
        simp only [validBlocks, hd', Bool.false_eq_true, if_false, hterm',
          Bool.and_eq_true] at hv
        obtain ⟨⟨hfield, hinB⟩, hv2⟩ := hv
        subst hinB
        have htr := ht rfl
        have hlen_step : ∀ recs : List IntfDict,
            recs.length = acc.length + ls.countP isTermLine +
              (if endsOpen ls true then 1 else 0) →
            recs.length = acc.length + (l :: ls).countP isTermLine +
              (if endsOpen (l :: ls) true then 1 else 0) := by
          intro recs hlen
          rw [List.countP_cons, hterm']
          simp only [endsOpen, hd', Bool.false_eq_true, if_false, hterm']
          cases ho : endsOpen ls true with
          | true =>
            simp only [ho, eq_self_iff_true, if_true, Bool.false_eq_true,
              if_false, List.length_append, List.length_singleton] at hlen ⊢
            omega
          | false =>
            simp only [ho, eq_self_iff_true, if_true, Bool.false_eq_true,
              if_false, List.length_append, List.length_singleton] at hlen ⊢
            omega
        unfold isFieldLine at hfield
        simp only [Bool.or_eq_true, Bool.and_eq_true, decide_eq_true_eq]
          at hfield
        rcases hfield with ((⟨hp, htok⟩ | ⟨hp, htok⟩) | ⟨hp, htok⟩) | ⟨hp, htok⟩
        · -- nameif
          have c1 := pyStartsWith_excl (pyStrip l) "nameif" "interface " hp
            (by decide)
          obtain ⟨w, hw⟩ := pyGet_ok_of_lt (pySplitWs (pyStrip l)) 1
            (by unfold tokCount at htok; omega)
          obtain ⟨recs, hrec, hlen⟩ := ih true { cur with name := some w } acc
            hv2 (fun _ => by simp [IntfDict.truthy]) (fun h => by cases h)
          refine ⟨recs, ?_, hlen_step recs hlen⟩
          simp only [piGo, c1, Bool.false_eq_true, if_false, hp, if_true, hw]
          exact hrec
        · -- security-level
          have c1 := pyStartsWith_excl (pyStrip l) "security-level"
            "interface " hp (by decide)
          have c2 := pyStartsWith_excl (pyStrip l) "security-level" "nameif"
            hp (by decide)
          obtain ⟨w, hw⟩ := pyGet_ok_of_lt (pySplitWs (pyStrip l)) 1
            (by unfold tokCount at htok; omega)
          obtain ⟨recs, hrec, hlen⟩ := ih true { cur with seclevel := some w }
            acc hv2 (fun _ => by simp [IntfDict.truthy]) (fun h => by cases h)
          refine ⟨recs, ?_, hlen_step recs hlen⟩
          simp only [piGo, c1, c2, Bool.false_eq_true, if_false, hp, if_true,
            hw]
          exact hrec
        · -- ip address
          have c1 := pyStartsWith_excl (pyStrip l) "ip address" "interface "
            hp (by decide)
          have c2 := pyStartsWith_excl (pyStrip l) "ip address" "nameif" hp
            (by decide)
          have c3 := pyStartsWith_excl (pyStrip l) "ip address"
            "security-level" hp (by decide)
          obtain ⟨a, hga⟩ := pyGet_ok_of_lt (pySplitWs (pyStrip l)) 2
            (by unfold tokCount at htok; omega)
          obtain ⟨b, hgb⟩ := pyGet_ok_of_lt (pySplitWs (pyStrip l)) 3
            (by unfold tokCount at htok; omega)
          by_cases hsb : subOccurs "standby".toList (pyStrip l).toList = true
          · obtain ⟨z, hz⟩ := pyLast_ok_of_ne_nil (pySplitWs (pyStrip l))
              (by unfold tokCount at htok; intro hnil; rw [hnil] at htok
                  simp at htok)
            obtain ⟨recs, hrec, hlen⟩ := ih true
              { cur with ipaddr := some a, mask := some b, standby := some z }
              acc hv2 (fun _ => by simp [IntfDict.truthy])
              (fun h => by cases h)
            refine ⟨recs, ?_, hlen_step recs hlen⟩
            simp only [piGo, c1, c2, c3, Bool.false_eq_true, if_false, hp,
              if_true, hga, hgb, hsb, hz]
            exact hrec
          · have hsb' : subOccurs "standby".toList (pyStrip l).toList = false := by
              simpa using hsb
            obtain ⟨recs, hrec, hlen⟩ := ih true
              { cur with ipaddr := some a, mask := some b } acc hv2
              (fun _ => by simp [IntfDict.truthy]) (fun h => by cases h)
            refine ⟨recs, ?_, hlen_step recs hlen⟩
            simp only [piGo, c1, c2, c3, Bool.false_eq_true, if_false, hp,
              if_true, hga, hgb, hsb']
            exact hrec
        · -- vlan
          have c1 := pyStartsWith_excl (pyStrip l) "vlan" "interface " hp
            (by decide)
          have c2 := pyStartsWith_excl (pyStrip l) "vlan" "nameif" hp
            (by decide)
          have c3 := pyStartsWith_excl (pyStrip l) "vlan" "security-level" hp
            (by decide)
          have c4 := pyStartsWith_excl (pyStrip l) "vlan" "ip address" hp
            (by decide)
          obtain ⟨w, hw⟩ := pyGet_ok_of_lt (pySplitWs (pyStrip l)) 1
            (by unfold tokCount at htok; omega)
          obtain ⟨recs, hrec, hlen⟩ := ih true { cur with vlan := some w } acc
            hv2 (fun _ => by simp [IntfDict.truthy]) (fun h => by cases h)
          refine ⟨recs, ?_, hlen_step recs hlen⟩
          simp only [piGo, c1, c2, c3, c4, Bool.false_eq_true, if_false, hp,
            if_true, hw]
          exact hrec

/-- C6: over inputs made of valid interface blocks each terminated by the
bare delimiter (last block possibly unterminated), the interface recognizer
succeeds and emits exactly one record per terminator line, plus one if a
block is still open at end-of-input. -/
theorem C6_interface_record_count (lines : List String)
    (hv : validBlocks lines false = true) :
    ∃ recs, parse_interfaces lines = .ok recs ∧
      recs.length = lines.countP isTermLine +
        (if endsOpen lines false then 1 else 0) := by
  obtain ⟨recs, h1, h2⟩ := piGo_count lines false {} [] hv
    (fun h => by cases h) (fun _ => rfl)
  exact ⟨recs, h1, by simpa using h2⟩

/-- C6 witness: two blocks, the first terminated, the second left open. -/
theorem C6_witness :
    ∃ recs, parse_interfaces
        ["interface Gi1", "nameif inside", "!", "interface Gi2"] =
        .ok recs ∧
      recs.length =
        ["interface Gi1", "nameif inside", "!", "interface Gi2"].countP
          isTermLine +
        (if endsOpen ["interface Gi1", "nameif inside", "!", "interface Gi2"]
          false then 1 else 0) :=
  C6_interface_record_count _ (by decide)
